import Mathlib

/-!
Verification of the HYBRIDJOIN streaming ETL pipeline (`Hybrid-Join.py`,
`Load-Master-Data.py`).

The development shallowly embeds the core of `HybridJoinBatch`:

* row parsing done by `stream_reader_thread` (lines 159-165), including the
  abort-on-exception behaviour of its `try/except/finally` (lines 145-180);
* the per-tuple join chain of `hybridjoin_thread` (lines 229-275) with its
  batch accumulator and threshold flush (lines 277-279);
* `flush_batch` (lines 182-214) with commit/rollback modelled by a sink
  oracle `sink : Nat → Bool` giving the outcome of each bulk-insert attempt;
* the product-row loading of `load_master_data` (lines 123-131);
* a small-step interleaving semantics of the two threads (producer
  `stream_reader_thread`, consumer `hybridjoin_thread`) communicating
  through the FIFO `stream_buffer`, used for the temporal and ordering
  properties.

Numeric conventions: Python floats (prices, totals) are modelled as `ℚ`;
Python ints as `Int`/`Nat`.  Maps (`dict`) are association lists, sets are
lists, with only key lookup / membership used, exactly as in the source.
-/

namespace HybridJoin

/-! ### String helpers: models of Python `str.strip`, `int(...)`,
and `datetime.strptime(s, "%Y-%m-%d")` -/

/-- Model of Python `str.strip()` on a character list: drop whitespace from
both ends. -/
def stripChars (cs : List Char) : List Char :=
  ((cs.dropWhile Char.isWhitespace).reverse.dropWhile Char.isWhitespace).reverse

/-- Model of Python `str.strip()`. -/
def strip (s : String) : String :=
  ⟨stripChars s.data⟩

/-- Value of a digit string (most significant digit first). -/
def digitsToNat (cs : List Char) : Nat :=
  cs.foldl (fun a c => a * 10 + (c.toNat - '0'.toNat)) 0

/-- Parse a non-empty all-digit character list as a natural number. -/
def parseNatDigits? (cs : List Char) : Option Nat :=
  if cs ≠ [] ∧ cs.all Char.isDigit then some (digitsToNat cs) else none

/-- Model of Python `int(s)` on a string: optional surrounding whitespace,
optional sign, decimal digits; anything else raises (returns `none`). -/
def parseIntPy? (s : String) : Option Int :=
  match stripChars s.data with
  | '+' :: rest => (parseNatDigits? rest).map Int.ofNat
  | '-' :: rest => (parseNatDigits? rest).map (fun n => -(n : Int))
  | cs => (parseNatDigits? cs).map Int.ofNat

/-- Split a character list on the character `'-'`. -/
def splitDash : List Char → List (List Char)
  | [] => [[]]
  | c :: cs =>
    let r := splitDash cs
    if c = '-' then [] :: r
    else
      match r with
      | [] => [[c]]
      | g :: gs => (c :: g) :: gs

/-- Gregorian leap-year test, as used by Python's `datetime` validation. -/
def isLeapYear (y : Nat) : Bool :=
  (y % 4 == 0 && y % 100 != 0) || y % 400 == 0

/-- Number of days in a month (with leap years), as validated by
`datetime.strptime`. -/
def daysInMonth (y m : Nat) : Nat :=
  if m == 2 then (if isLeapYear y then 29 else 28)
  else if m == 4 || m == 6 || m == 9 || m == 11 then 30
  else 31

/-- Model of lines 245-246 of `Hybrid-Join.py`:
`datetime.strptime(s, "%Y-%m-%d")` followed by `int(strftime("%Y%m%d"))`.
A valid date is `YYYY-MM-DD` with a four-digit year, one- or two-digit
month and day, and a calendar-valid (year, month, day) combination; the
result is the integer `y * 10000 + m * 100 + d`.  Any other string raises
in the source and yields `none` here. -/
def parseDateId (s : String) : Option Nat :=
  match splitDash s.data with
  | [ys, ms, ds] =>
    if ys.length = 4 ∧ (1 ≤ ms.length ∧ ms.length ≤ 2) ∧
       (1 ≤ ds.length ∧ ds.length ≤ 2) then
      match parseNatDigits? ys, parseNatDigits? ms, parseNatDigits? ds with
      | some y, some m, some d =>
        if 1 ≤ y ∧ 1 ≤ m ∧ m ≤ 12 ∧ 1 ≤ d ∧ d ≤ daysInMonth y m then
          some (y * 10000 + m * 100 + d)
        else none
      | _, _, _ => none
    else none
  | _ => none

/-! ### Data model -/

/-- A `dim_customer` row as loaded by `load_master_data` (the join only
tests key membership; the attributes are carried opaquely). -/
structure CustomerRecord where
  customer_id : String
  gender : String
  age : String
  occupation : String
  city_category : String
  stay_in_current_city_years : String
  marital_status : String
deriving DecidableEq

/-- A product entry as built by `load_master_data` lines 125-131. -/
structure ProductRecord where
  product_id : String
  product_category : String
  price : ℚ
  store_id : String
  supplier_id : String
deriving DecidableEq

/-- A raw row of `product_master_data.csv` as seen at lines 123-131;
`price` is `none` when `pd.notna(row['price$'])` is false (missing / NaN). -/
structure ProductRaw where
  Product_ID : String
  Product_Category : String
  price : Option ℚ
  storeID : String
  supplierID : String
deriving DecidableEq

/-- Lines 124-131 of `Hybrid-Join.py`: the `ProductRecord` stored in
`product_master` for one CSV row.  A missing price becomes `0.0`. -/
def productRecordOfRow (r : ProductRaw) : ProductRecord :=
  { product_id := strip r.Product_ID
  , product_category := strip r.Product_Category
  , price := match r.price with | some p => p | none => 0
  , store_id := strip r.storeID
  , supplier_id := strip r.supplierID }

/-- The in-memory master data (`customer_master`, `product_master`,
`valid_dates`), fully loaded before streaming begins and read-only after. -/
structure Master where
  customer_master : List (String × CustomerRecord)
  product_master : List (String × ProductRecord)
  valid_dates : List Nat
deriving DecidableEq

/-- A transaction as put on `stream_buffer` (lines 159-165). -/
structure TransactionRecord where
  order_id : String
  customer_id : String
  product_id : String
  quantity : Int
  date : String
deriving DecidableEq

/-- A raw row of the transactional CSV with the columns read at
lines 159-165. -/
structure RawRow where
  orderID : String
  Customer_ID : String
  Product_ID : String
  quantity : String
  date : String
deriving DecidableEq

/-- Lines 159-165 of `Hybrid-Join.py`: build the transaction dict from a
CSV row.  Only `int(row['quantity'])` can raise; a failure there is the
"malformed row" case and yields `none`. -/
def parseRow (r : RawRow) : Option TransactionRecord :=
  (parseIntPy? r.quantity).map fun q =>
    { order_id := r.orderID
    , customer_id := r.Customer_ID
    , product_id := strip r.Product_ID
    , quantity := q
    , date := r.date }

/-- The joined tuple appended to `insert_batch` (lines 262-272). -/
structure JoinedRecord where
  order_id : String
  customer_id : String
  product_id : String
  date_id : Nat
  store_id : String
  supplier_id : String
  quantity : Int
  unit_price : ℚ
  total_amount : ℚ
deriving DecidableEq

/-- Lines 256-272 of `Hybrid-Join.py`: the record built from a stream tuple
and the product data it joined with. -/
def joinedRecordOf (t : TransactionRecord) (product_data : ProductRecord)
    (date_id : Nat) : JoinedRecord :=
  { order_id := t.order_id
  , customer_id := t.customer_id
  , product_id := t.product_id
  , date_id := date_id
  , store_id := product_data.store_id
  , supplier_id := product_data.supplier_id
  , quantity := t.quantity
  , unit_price := product_data.price
  , total_amount := (t.quantity : ℚ) * product_data.price }

/-! ### Stream reader (`stream_reader_thread`, lines 139-180) -/

/-- Transactions actually enqueued by the reader: rows are parsed in feed
order and an unparseable row raises, ending the loop (the exception is
caught only by the handler at line 175, outside the row loop). -/
def produced : List RawRow → List TransactionRecord
  | [] => []
  | r :: rs =>
    match parseRow r with
    | some t => t :: produced rs
    | none => []

/-- Whether the reader exits through the `except` branch (line 175),
i.e. some row of the feed fails to parse before the feed is exhausted. -/
def streamAborted : List RawRow → Bool
  | [] => false
  | r :: rs =>
    match parseRow r with
    | some _ => streamAborted rs
    | none => true

/-- Observable outcome of `stream_reader_thread` on a feed. -/
structure StreamResult where
  enqueued : List TransactionRecord
  readCount : Nat
  complete : Bool
  aborted : Bool
deriving DecidableEq

/-- Lines 139-180 of `Hybrid-Join.py`: the whole reader run.
`total_stream_tuples` is incremented once per enqueued row (line 168) and
the `finally` block (line 180) sets `stream_complete` on every exit path. -/
def streamReader (rows : List RawRow) : StreamResult :=
  { enqueued := produced rows
  , readCount := (produced rows).length
  , complete := true
  , aborted := streamAborted rows }

/-! ### Join engine state and `flush_batch` -/

/-- State owned by `hybridjoin_thread` / `flush_batch`: the accumulator
`insert_batch`, the statistics counters, and a model of the warehouse.
`flushCount` indexes the bulk-insert attempts (calls that reach the
database); `flushLog` records every non-empty batch passed to
`cursor.executemany`, whether or not the commit succeeded; `db` records the
committed batches (the contents of `fact_sales`). -/
structure EngineState where
  insert_batch : List JoinedRecord
  total_joined : Nat
  total_skipped : Nat
  total_loaded : Nat
  flushCount : Nat
  flushLog : List (List JoinedRecord)
  db : List (List JoinedRecord)
deriving DecidableEq

/-- The engine state at the start of a run (constructor, lines 27-33). -/
def engineInit : EngineState :=
  { insert_batch := []
  , total_joined := 0
  , total_skipped := 0
  , total_loaded := 0
  , flushCount := 0
  , flushLog := []
  , db := [] }

/-- Lines 182-214 of `Hybrid-Join.py` (`flush_batch`).  An empty batch
returns `0` at once without touching the database.  Otherwise the batch is
bulk-inserted: the sink oracle decides whether the transaction commits
(lines 197-205) or raises, in which case the transaction is rolled back and
the batch discarded (lines 207-214).  Either way `insert_batch` is cleared.
Returns `(count, new state)`. -/
def flush_batch (sink : Nat → Bool) (s : EngineState) : Nat × EngineState :=
  if s.insert_batch = [] then (0, s)
  else if sink s.flushCount then
    (s.insert_batch.length,
     { s with
       db := s.db ++ [s.insert_batch]
       , flushLog := s.flushLog ++ [s.insert_batch]
       , total_loaded := s.total_loaded + s.insert_batch.length
       , insert_batch := []
       , flushCount := s.flushCount + 1 })
  else
    (0,
     { s with
       flushLog := s.flushLog ++ [s.insert_batch]
       , insert_batch := []
       , flushCount := s.flushCount + 1 })

/-- Lines 229-279 of `Hybrid-Join.py`: the body of the join loop for one
popped stream tuple — customer lookup, product lookup, date conversion and
validity check (each miss counts the tuple as skipped and moves on), then
total-amount computation, append to `insert_batch`, and threshold flush. -/
def hybridjoinStep (m : Master) (batch_size : Nat) (sink : Nat → Bool)
    (s : EngineState) (t : TransactionRecord) : EngineState :=
  match m.customer_master.lookup t.customer_id with
  | none => { s with total_skipped := s.total_skipped + 1 }
  | some _ =>
    match m.product_master.lookup t.product_id with
    | none => { s with total_skipped := s.total_skipped + 1 }
    | some product_data =>
      match parseDateId t.date with
      | none => { s with total_skipped := s.total_skipped + 1 }
      | some date_id =>
        if date_id ∈ m.valid_dates then
          let values := joinedRecordOf t product_data date_id
          let s' := { s with
            insert_batch := s.insert_batch ++ [values]
            , total_joined := s.total_joined + 1 }
          if batch_size ≤ s'.insert_batch.length then
            (flush_batch sink s').2
          else s'
        else { s with total_skipped := s.total_skipped + 1 }

/-- The join loop run over a whole sequence of popped tuples. -/
def engineRun (m : Master) (batch_size : Nat) (sink : Nat → Bool)
    (s : EngineState) (ts : List TransactionRecord) : EngineState :=
  ts.foldl (hybridjoinStep m batch_size sink) s

/-- A complete sequential run of `hybridjoin_thread` over the stream it
consumes: the join loop followed by the final flush of any remaining batch
(lines 291-292 and 299-301). -/
def hybridjoinRun (m : Master) (batch_size : Nat) (sink : Nat → Bool)
    (ts : List TransactionRecord) : EngineState :=
  (flush_batch sink (engineRun m batch_size sink engineInit ts)).2

/-- The join chain of lines 229-254 as a per-tuple function: `some r` when
all three lookups succeed, where `r` is the record appended to the batch,
and `none` when the tuple is skipped. -/
def mkJoined (m : Master) (t : TransactionRecord) : Option JoinedRecord :=
  match m.customer_master.lookup t.customer_id with
  | none => none
  | some _ =>
    match m.product_master.lookup t.product_id with
    | none => none
    | some product_data =>
      match parseDateId t.date with
      | none => none
      | some date_id =>
        if date_id ∈ m.valid_dates then
          some (joinedRecordOf t product_data date_id)
        else none

/-- The joined records a stream of tuples gives rise to, in stream order. -/
def successOutputs (m : Master) (ts : List TransactionRecord) :
    List JoinedRecord :=
  ts.filterMap (mkJoined m)

/-! ### Interleaved pipeline semantics

`stream_reader_thread` and `hybridjoin_thread` run concurrently and
communicate through the FIFO `stream_buffer` and the monotone flag
`stream_complete`.  `SysState` is a snapshot of the shared state plus the
ghost history `consumed` of tuples popped by the engine; `Step` has one
transition per atomic action of either thread (with `self.running` held
`true`, i.e. no external cancellation). -/

structure SysState where
  feed : List RawRow
  channel : List TransactionRecord
  streamComplete : Bool
  read : Nat
  engine : EngineState
  terminated : Bool
  consumed : List TransactionRecord
deriving DecidableEq

/-- Atomic transitions of the two-thread pipeline.

* `produce`: lines 155-168 — the reader parses the next row, enqueues it,
  and increments `total_stream_tuples`.
* `produceAbort`: a row fails to parse; the exception leaves the loop and
  the `finally` (line 180) sets `stream_complete`.
* `produceDone`: the feed is exhausted; `finally` sets `stream_complete`.
* `consume`: lines 226-287 — the engine pops the head of the FIFO and runs
  one iteration of the join body.
* `timeoutFlush`: lines 289-296 — a `get` timed out, `stream_complete` is
  observed `true`, the remaining batch is flushed, but the buffer is seen
  non-empty at line 294 (a tuple was enqueued between the timeout and the
  flag becoming `true`), so the loop continues.
* `timeoutDrain`: lines 289-301 — a `get` timed out with `stream_complete`
  `true` and the buffer empty: remaining batch flushed, loop exited (the
  final flush at lines 299-301 then sees an empty batch). -/
inductive Step (m : Master) (batch_size : Nat) (sink : Nat → Bool) :
    SysState → SysState → Prop where
  | produce (s : SysState) (r : RawRow) (rest : List RawRow)
      (t : TransactionRecord) :
      s.feed = r :: rest → s.streamComplete = false → parseRow r = some t →
      Step m batch_size sink s
        { s with feed := rest, channel := s.channel ++ [t],
                 read := s.read + 1 }
  | produceAbort (s : SysState) (r : RawRow) (rest : List RawRow) :
      s.feed = r :: rest → s.streamComplete = false → parseRow r = none →
      Step m batch_size sink s
        { s with feed := [], streamComplete := true }
  | produceDone (s : SysState) :
      s.feed = [] → s.streamComplete = false →
      Step m batch_size sink s { s with streamComplete := true }
  | consume (s : SysState) (t : TransactionRecord)
      (rest : List TransactionRecord) :
      s.terminated = false → s.channel = t :: rest →
      Step m batch_size sink s
        { s with channel := rest,
                 engine := hybridjoinStep m batch_size sink s.engine t,
                 consumed := s.consumed ++ [t] }
  | timeoutFlush (s : SysState) :
      s.terminated = false → s.streamComplete = true → s.channel ≠ [] →
      Step m batch_size sink s
        { s with engine := (flush_batch sink s.engine).2 }
  | timeoutDrain (s : SysState) :
      s.terminated = false → s.streamComplete = true → s.channel = [] →
      Step m batch_size sink s
        { s with engine := (flush_batch sink s.engine).2,
                 terminated := true }

/-- The pipeline state at startup, before either thread has acted. -/
def initSys (rows : List RawRow) : SysState :=
  { feed := rows
  , channel := []
  , streamComplete := false
  , read := 0
  , engine := engineInit
  , terminated := false
  , consumed := [] }

/-- A pipeline state reachable from startup on the given feed. -/
def Reach (m : Master) (batch_size : Nat) (sink : Nat → Bool)
    (rows : List RawRow) (s : SysState) : Prop :=
  Relation.ReflTransGen (Step m batch_size sink) (initSys rows) s

/-! ### Concrete fixtures used to instantiate the theorems -/

/-- A sample customer row. -/
def cust0 : CustomerRecord :=
  { customer_id := "C1", gender := "M", age := "26-35", occupation := "7"
  , city_category := "A", stay_in_current_city_years := "2"
  , marital_status := "0" }

/-- A sample product entry with a known price. -/
def prod0 : ProductRecord :=
  { product_id := "P1", product_category := "Electronics", price := 3
  , store_id := "S1", supplier_id := "SUP1" }

/-- A sample master data set: one customer, one product, one valid date. -/
def mC : Master :=
  { customer_master := [("C1", cust0)]
  , product_master := [("P1", prod0)]
  , valid_dates := [20240105] }

/-- A transaction that joins against all three reference sets of `mC`. -/
def t0 : TransactionRecord :=
  { order_id := "O1", customer_id := "C1", product_id := "P1"
  , quantity := 2, date := "2024-01-05" }

/-- The raw CSV row that parses to `t0`. -/
def row0 : RawRow :=
  { orderID := "O1", Customer_ID := "C1", Product_ID := "P1"
  , quantity := "2", date := "2024-01-05" }

/-- A malformed raw CSV row: its quantity does not parse as an integer. -/
def rowBad : RawRow :=
  { orderID := "O2", Customer_ID := "C1", Product_ID := "P1"
  , quantity := "two", date := "2024-01-05" }

/-- A transaction whose customer id is not in `mC`. -/
def tNoCust : TransactionRecord :=
  { order_id := "O9", customer_id := "CX", product_id := "P1"
  , quantity := 1, date := "2024-01-05" }

/-- A transaction whose date does not parse as `YYYY-MM-DD`. -/
def tBadDate : TransactionRecord :=
  { order_id := "O8", customer_id := "C1", product_id := "P1"
  , quantity := 1, date := "bad-date" }

/-- A sink on which every bulk insert succeeds. -/
def sinkT : Nat → Bool := fun _ => true

/-- A sink whose first bulk insert fails and all later ones succeed. -/
def sinkFirstFails : Nat → Bool := fun n => n != 0

/-- A concrete joined record used to populate batches in examples. -/
def jW : JoinedRecord :=
  { order_id := "O1", customer_id := "C1", product_id := "P1"
  , date_id := 20240105, store_id := "S1", supplier_id := "SUP1"
  , quantity := 2, unit_price := 3, total_amount := 6 }

/-- An engine state holding one accumulated record, about to flush. -/
def sFail : EngineState :=
  { insert_batch := [jW], total_joined := 1, total_skipped := 0
  , total_loaded := 0, flushCount := 0, flushLog := [], db := [] }

/-- The pipeline state after fully running the feed `[row0]`: the row was
enqueued and read, the reader completed, the engine consumed the tuple and
then drained. -/
def sysD : SysState :=
  { feed := []
  , channel := []
  , streamComplete := true
  , read := 1
  , engine := (flush_batch sinkT (hybridjoinStep mC 2 sinkT engineInit t0)).2
  , terminated := true
  , consumed := [t0] }

/-- A terminated-engine pipeline state with nothing pending. -/
def sPre : SysState :=
  { feed := [], channel := [], streamComplete := true, read := 0
  , engine := engineInit, terminated := false, consumed := [] }

/-- The state reached from `sPre` by the drain transition. -/
def sPost : SysState :=
  { feed := [], channel := [], streamComplete := true, read := 0
  , engine := (flush_batch sinkT engineInit).2, terminated := true
  , consumed := [] }

/-- A product CSV row whose price field is missing (NaN). -/
def rowP : ProductRaw :=
  { Product_ID := "P2", Product_Category := "Toys", price := none
  , storeID := "S2", supplierID := "SUP2" }

/-- Master data whose only product comes from the missing-price row. -/
def mP : Master :=
  { customer_master := [("C1", cust0)]
  , product_master := [("P2", productRecordOfRow rowP)]
  , valid_dates := [20240105] }

/-- A transaction joining against the missing-price product. -/
def tP : TransactionRecord :=
  { order_id := "O3", customer_id := "C1", product_id := "P2"
  , quantity := 4, date := "2024-01-05" }

/-! ### Lemmas about `flush_batch` -/

/-- The accumulator is empty after any flush call, whatever the outcome. -/
lemma flush_insert_nil (sink : Nat → Bool) (s : EngineState) :
    (flush_batch sink s).2.insert_batch = [] := by
  unfold flush_batch
  by_cases h : s.insert_batch = []
  · simp [h]
  · simp only [h, if_false]
    split <;> rfl

/-- Flushing never changes the joined counter. -/
lemma flush_joined (sink : Nat → Bool) (s : EngineState) :
    (flush_batch sink s).2.total_joined = s.total_joined := by
  unfold flush_batch
  by_cases h : s.insert_batch = []
  · simp [h]
  · simp only [h, if_false]
    split <;> rfl

/-- Flushing never changes the skipped counter. -/
lemma flush_skipped (sink : Nat → Bool) (s : EngineState) :
    (flush_batch sink s).2.total_skipped = s.total_skipped := by
  unfold flush_batch
  by_cases h : s.insert_batch = []
  · simp [h]
  · simp only [h, if_false]
    split <;> rfl

/-- Flushing moves the accumulator into the flush log: the concatenation of
all batches ever passed to the bulk insert followed by the current
accumulator is invariant under a flush call. -/
lemma flush_log_join (sink : Nat → Bool) (s : EngineState) :
    (flush_batch sink s).2.flushLog.flatten ++ (flush_batch sink s).2.insert_batch
      = s.flushLog.flatten ++ s.insert_batch := by
  unfold flush_batch
  by_cases h : s.insert_batch = []
  · simp [h]
  · simp only [h, if_false]
    split <;> simp

/-- When every bulk insert succeeds, the committed batches stay equal to the
batches passed to the bulk insert. -/
lemma flush_db (sink : Nat → Bool) (s : EngineState)
    (hsink : ∀ n, sink n = true) (h : s.db = s.flushLog) :
    (flush_batch sink s).2.db = (flush_batch sink s).2.flushLog := by
  unfold flush_batch
  by_cases he : s.insert_batch = []
  · simp [he, h]
  · simp [he, hsink s.flushCount, h]

/-! ### Lemmas about the join-loop body -/

/-- The loop body of lines 229-279, characterized through the join chain
`mkJoined`: a tuple failing any lookup only bumps the skipped counter, and
a joining tuple appends its record and flushes at the threshold. -/
lemma hybridjoinStep_eq (m : Master) (bs : Nat) (sink : Nat → Bool)
    (s : EngineState) (t : TransactionRecord) :
    hybridjoinStep m bs sink s t =
      match mkJoined m t with
      | none => { s with total_skipped := s.total_skipped + 1 }
      | some j =>
        let s' := { s with insert_batch := s.insert_batch ++ [j]
                         , total_joined := s.total_joined + 1 }
        if bs ≤ s'.insert_batch.length then (flush_batch sink s').2 else s' := by
  unfold hybridjoinStep mkJoined
  cases hc : m.customer_master.lookup t.customer_id with
  | none => rfl
  | some c =>
    cases hp : m.product_master.lookup t.product_id with
    | none => rfl
    | some p =>
      cases hd : parseDateId t.date with
      | none => rfl
      | some d =>
        by_cases hv : d ∈ m.valid_dates <;> simp [hv]

/-- Every popped tuple increments exactly one of the joined and skipped
counters: their sum grows by one per tuple. -/
lemma step_counts (m : Master) (bs : Nat) (sink : Nat → Bool)
    (s : EngineState) (t : TransactionRecord) :
    (hybridjoinStep m bs sink s t).total_joined
      + (hybridjoinStep m bs sink s t).total_skipped
      = s.total_joined + s.total_skipped + 1 := by
  rw [hybridjoinStep_eq]
  cases mkJoined m t with
  | none => simp; omega
  | some j =>
    simp only []
    split
    · rw [flush_joined, flush_skipped]
      simp; omega
    · simp; omega

/-- Per tuple, either only the skipped counter or only the joined counter
is incremented, according to whether the join chain fails or succeeds. -/
lemma step_counts_cases (m : Master) (bs : Nat) (sink : Nat → Bool)
    (s : EngineState) (t : TransactionRecord) :
    ((hybridjoinStep m bs sink s t).total_joined = s.total_joined
      ∧ (hybridjoinStep m bs sink s t).total_skipped = s.total_skipped + 1)
    ∨ ((hybridjoinStep m bs sink s t).total_joined = s.total_joined + 1
      ∧ (hybridjoinStep m bs sink s t).total_skipped = s.total_skipped) := by
  rw [hybridjoinStep_eq]
  cases mkJoined m t with
  | none => left; simp
  | some j =>
    right
    simp only []
    split
    · rw [flush_joined, flush_skipped]
      simp
    · simp

/-- Per tuple, the concatenation of the flush log and the accumulator grows
by exactly the output of the join chain on that tuple. -/
lemma step_log_join (m : Master) (bs : Nat) (sink : Nat → Bool)
    (s : EngineState) (t : TransactionRecord) :
    (hybridjoinStep m bs sink s t).flushLog.flatten
      ++ (hybridjoinStep m bs sink s t).insert_batch
      = s.flushLog.flatten ++ s.insert_batch ++ (mkJoined m t).toList := by
  rw [hybridjoinStep_eq]
  cases mkJoined m t with
  | none => simp
  | some j =>
    simp only [Option.toList_some]
    split
    · rw [flush_log_join]
      simp
    · simp

/-- The loop body preserves the batch-size invariant: entering with fewer
than `bs` accumulated records leaves fewer than `bs` accumulated records. -/
lemma step_batch_lt (m : Master) (bs : Nat) (sink : Nat → Bool)
    (s : EngineState) (t : TransactionRecord) (hbs : 1 ≤ bs)
    (h : s.insert_batch.length < bs) :
    (hybridjoinStep m bs sink s t).insert_batch.length < bs := by
  rw [hybridjoinStep_eq]
  cases mkJoined m t with
  | none => simpa using h
  | some j =>
    simp only []
    split
    · rw [flush_insert_nil]
      simpa using hbs
    · rename_i hlen
      simp only [List.length_append, List.length_singleton] at hlen ⊢
      omega

/-- The loop body preserves agreement between committed batches and the
flush log when every bulk insert succeeds. -/
lemma step_db (m : Master) (bs : Nat) (sink : Nat → Bool)
    (s : EngineState) (t : TransactionRecord)
    (hsink : ∀ n, sink n = true) (h : s.db = s.flushLog) :
    (hybridjoinStep m bs sink s t).db = (hybridjoinStep m bs sink s t).flushLog := by
  rw [hybridjoinStep_eq]
  cases mkJoined m t with
  | none => simpa using h
  | some j =>
    simp only []
    split
    · exact flush_db sink _ hsink (by simpa using h)
    · simpa using h

/-! ### Lemmas about whole runs of the join loop -/

lemma successOutputs_nil (m : Master) : successOutputs m [] = [] := rfl

lemma successOutputs_cons (m : Master) (t : TransactionRecord)
    (ts : List TransactionRecord) :
    successOutputs m (t :: ts) = (mkJoined m t).toList ++ successOutputs m ts := by
  cases h : mkJoined m t <;> simp [successOutputs, List.filterMap_cons, h]

lemma successOutputs_append (m : Master) (a b : List TransactionRecord) :
    successOutputs m (a ++ b) = successOutputs m a ++ successOutputs m b := by
  simp [successOutputs, List.filterMap_append]

lemma engineRun_cons (m : Master) (bs : Nat) (sink : Nat → Bool)
    (s : EngineState) (t : TransactionRecord) (ts : List TransactionRecord) :
    engineRun m bs sink s (t :: ts)
      = engineRun m bs sink (hybridjoinStep m bs sink s t) ts := rfl

/-- Along any run of the join loop, the concatenation of the flush log and
the accumulator is the join-chain output of the consumed tuples. -/
lemma engineRun_log_join (m : Master) (bs : Nat) (sink : Nat → Bool) :
    ∀ (ts : List TransactionRecord) (s : EngineState),
    (engineRun m bs sink s ts).flushLog.flatten
      ++ (engineRun m bs sink s ts).insert_batch
      = s.flushLog.flatten ++ s.insert_batch ++ successOutputs m ts := by
  intro ts
  induction ts with
  | nil => intro s; simp [engineRun, successOutputs]
  | cons t ts ih =>
    intro s
    rw [engineRun_cons, ih, step_log_join, successOutputs_cons,
      List.append_assoc]

/-- Along any run of the join loop, the joined and skipped counters add up
to the number of consumed tuples. -/
lemma engineRun_counts (m : Master) (bs : Nat) (sink : Nat → Bool) :
    ∀ (ts : List TransactionRecord) (s : EngineState),
    (engineRun m bs sink s ts).total_joined
      + (engineRun m bs sink s ts).total_skipped
      = s.total_joined + s.total_skipped + ts.length := by
  intro ts
  induction ts with
  | nil => intro s; simp [engineRun]
  | cons t ts ih =>
    intro s
    rw [engineRun_cons, ih, step_counts]
    simp
    omega

/-- The batch-size invariant holds along any run of the join loop. -/
lemma engineRun_batch_lt (m : Master) (bs : Nat) (sink : Nat → Bool)
    (hbs : 1 ≤ bs) :
    ∀ (ts : List TransactionRecord) (s : EngineState),
    s.insert_batch.length < bs →
    (engineRun m bs sink s ts).insert_batch.length < bs := by
  intro ts
  induction ts with
  | nil => intro s h; simpa [engineRun] using h
  | cons t ts ih =>
    intro s h
    rw [engineRun_cons]
    exact ih _ (step_batch_lt m bs sink s t hbs h)

/-- When every bulk insert succeeds, the committed batches stay equal to
the flush log along any run of the join loop. -/
lemma engineRun_db (m : Master) (bs : Nat) (sink : Nat → Bool)
    (hsink : ∀ n, sink n = true) :
    ∀ (ts : List TransactionRecord) (s : EngineState),
    s.db = s.flushLog →
    (engineRun m bs sink s ts).db = (engineRun m bs sink s ts).flushLog := by
  intro ts
  induction ts with
  | nil => intro s h; simpa [engineRun] using h
  | cons t ts ih =>
    intro s h
    rw [engineRun_cons]
    exact ih _ (step_db m bs sink s t hsink h)

/-- A full sequential run commits exactly the join-chain outputs of the
consumed stream, in order, when every bulk insert succeeds. -/
lemma hybridjoinRun_db (m : Master) (bs : Nat) (sink : Nat → Bool)
    (hsink : ∀ n, sink n = true) (ts : List TransactionRecord) :
    (hybridjoinRun m bs sink ts).db.flatten = successOutputs m ts := by
  unfold hybridjoinRun
  have hlog := engineRun_log_join m bs sink ts engineInit
  have h1 := flush_log_join sink (engineRun m bs sink engineInit ts)
  rw [flush_insert_nil, List.append_nil] at h1
  have hdb0 : (engineRun m bs sink engineInit ts).db
      = (engineRun m bs sink engineInit ts).flushLog :=
    engineRun_db m bs sink hsink ts engineInit rfl
  have hdb1 := flush_db sink (engineRun m bs sink engineInit ts) hsink hdb0
  rw [hdb1, h1]
  simpa [engineInit] using hlog

/-! ### Lemmas about the stream reader -/

lemma produced_cons_ok (r : RawRow) (rs : List RawRow)
    (t : TransactionRecord) (h : parseRow r = some t) :
    produced (r :: rs) = t :: produced rs := by
  simp [produced, h]

lemma produced_cons_bad (r : RawRow) (rs : List RawRow)
    (h : parseRow r = none) : produced (r :: rs) = [] := by
  simp [produced, h]

/-- On a feed whose first malformed row is `r`, the reader enqueues exactly
the parses of the rows before `r` and nothing after it. -/
lemma produced_abort (r : RawRow) (hr : parseRow r = none) :
    ∀ (pre post : List RawRow),
    (∀ x ∈ pre, (parseRow x).isSome = true) →
    produced (pre ++ r :: post) = pre.filterMap parseRow := by
  intro pre
  induction pre with
  | nil => intro post _; simp [produced_cons_bad r post hr]
  | cons a as ih =>
    intro post hall
    have ha : (parseRow a).isSome = true := hall a (by simp)
    obtain ⟨t, ht⟩ := Option.isSome_iff_exists.mp ha
    rw [List.cons_append, produced_cons_ok a _ t ht, ih post
      (fun x hx => hall x (by simp [hx])), List.filterMap_cons, ht]

lemma streamAborted_abort (r : RawRow) (hr : parseRow r = none) :
    ∀ (pre post : List RawRow),
    (∀ x ∈ pre, (parseRow x).isSome = true) →
    streamAborted (pre ++ r :: post) = true := by
  intro pre
  induction pre with
  | nil => intro post _; simp [streamAborted, hr]
  | cons a as ih =>
    intro post hall
    have ha : (parseRow a).isSome = true := hall a (by simp)
    obtain ⟨t, ht⟩ := Option.isSome_iff_exists.mp ha
    simp only [List.cons_append, streamAborted, ht]
    exact ih post (fun x hx => hall x (by simp [hx]))

lemma filterMap_length_of_isSome (pre : List RawRow)
    (h : ∀ x ∈ pre, (parseRow x).isSome = true) :
    (pre.filterMap parseRow).length = pre.length := by
  induction pre with
  | nil => rfl
  | cons a as ih =>
    have ha : (parseRow a).isSome = true := h a (by simp)
    obtain ⟨t, ht⟩ := Option.isSome_iff_exists.mp ha
    rw [List.filterMap_cons, ht]
    simp only [List.length_cons]
    rw [ih (fun x hx => h x (by simp [hx]))]

/-! ### Invariants of the interleaved pipeline -/

/-- Inductive invariant of the two-thread pipeline on feed `rows`:

* `hsplit`: the tuples popped so far, the FIFO contents, and (while the
  reader is still running) the tuples the reader will still enqueue,
  concatenate to the full enqueue sequence of the feed;
* `hread`: the read counter counts the tuples enqueued so far;
* `hterm`: a terminated engine saw the completion flag with an empty FIFO
  and has flushed its accumulator;
* `hcount`: joined plus skipped equals the number of popped tuples;
* `hlog`: flush log plus accumulator is the join-chain output of the
  popped tuples, in order;
* `hdb`: with an always-successful sink, committed batches are exactly the
  flushed batches. -/
structure SysInv (m : Master) (sink : Nat → Bool) (rows : List RawRow)
    (s : SysState) : Prop where
  hsplit : s.consumed ++ s.channel
      ++ (if s.streamComplete then [] else produced s.feed) = produced rows
  hread : s.read = s.consumed.length + s.channel.length
  hterm : s.terminated = true →
      s.streamComplete = true ∧ s.channel = []
        ∧ s.engine.insert_batch = []
  hcount : s.engine.total_joined + s.engine.total_skipped = s.consumed.length
  hlog : s.engine.flushLog.flatten ++ s.engine.insert_batch
      = successOutputs m s.consumed
  hdb : (∀ n, sink n = true) → s.engine.db = s.engine.flushLog

lemma sysInv_init (m : Master) (sink : Nat → Bool) (rows : List RawRow) :
    SysInv m sink rows (initSys rows) := by
  constructor <;> simp [initSys, engineInit, successOutputs]

lemma sysInv_step (m : Master) (bs : Nat) (sink : Nat → Bool)
    (rows : List RawRow) (s s' : SysState)
    (hinv : SysInv m sink rows s) (hstep : Step m bs sink s s') :
    SysInv m sink rows s' := by
  obtain ⟨hsplit, hread, hterm, hcount, hlog, hdb⟩ := hinv
  cases hstep with
  | produce r rest t hfeed hsc hparse =>
    have hterm' : s.terminated = false := by
      by_contra hc
      rw [(hterm (by simpa using hc)).1] at hsc
      exact Bool.false_ne_true hsc.symm
    constructor <;> simp only [hsc, if_false] at hsplit ⊢
    · rw [hfeed, produced_cons_ok r rest t hparse] at hsplit
      simpa [List.append_assoc] using hsplit
    · simp [hread]; omega
    · intro hc; simp [hterm'] at hc
    · exact hcount
    · exact hlog
    · exact hdb
  | produceAbort r rest hfeed hsc hparse =>
    have hterm' : s.terminated = false := by
      by_contra hc
      rw [(hterm (by simpa using hc)).1] at hsc
      exact Bool.false_ne_true hsc.symm
    constructor
    · simp only [hsc] at hsplit
      rw [hfeed, produced_cons_bad r rest hparse] at hsplit
      simpa using hsplit
    · simpa using hread
    · intro hc; simp [hterm'] at hc
    · exact hcount
    · exact hlog
    · exact hdb
  | produceDone hfeed hsc =>
    have hterm' : s.terminated = false := by
      by_contra hc
      rw [(hterm (by simpa using hc)).1] at hsc
      exact Bool.false_ne_true hsc.symm
    constructor
    · simp only [hsc, if_false] at hsplit
      rw [hfeed] at hsplit
      simpa [produced] using hsplit
    · simpa using hread
    · intro hc; simp [hterm'] at hc
    · exact hcount
    · exact hlog
    · exact hdb
  | consume t rest hterm0 hchan =>
    constructor
    · rw [hchan] at hsplit
      simpa [List.append_assoc] using hsplit
    · rw [hchan] at hread
      simp [hread]; omega
    · intro hc; simp [hterm0] at hc
    · simp only []
      rw [step_counts]
      simp [hcount]
    · simp only []
      rw [step_log_join, hlog, successOutputs_append, successOutputs_cons]
      simp [successOutputs]
    · intro hs
      exact step_db m bs sink s.engine t hs (hdb hs)
  | timeoutFlush hterm0 hsc hchan =>
    constructor
    · simpa using hsplit
    · simpa using hread
    · intro hc; simp [hterm0] at hc
    · simp only []
      rw [flush_joined, flush_skipped]
      exact hcount
    · simp only []
      rw [flush_log_join]
      exact hlog
    · intro hs
      exact flush_db sink s.engine hs (hdb hs)
  | timeoutDrain hterm0 hsc hchan =>
    constructor
    · simpa [hsc, hchan] using hsplit
    · simpa [hchan] using hread
    · intro _
      exact ⟨by simpa using hsc, by simpa using hchan, flush_insert_nil sink s.engine⟩
    · simp only []
      rw [flush_joined, flush_skipped]
      exact hcount
    · simp only []
      rw [flush_log_join]
      exact hlog
    · intro hs
      exact flush_db sink s.engine hs (hdb hs)

/-- Every reachable pipeline state satisfies the invariant. -/
lemma reach_inv (m : Master) (bs : Nat) (sink : Nat → Bool)
    (rows : List RawRow) (s : SysState)
    (h : Reach m bs sink rows s) : SysInv m sink rows s := by
  induction h with
  | refl => exact sysInv_init m sink rows
  | tail _ hstep ih => exact sysInv_step m bs sink rows _ _ ih hstep

/-- The concrete four-step pipeline trace on the feed `[row0]`: enqueue the
row, complete the stream, consume the tuple, drain and terminate. -/
lemma reach_sysD : Reach mC 2 sinkT [row0] sysD := by
  refine Relation.ReflTransGen.head
    (Step.produce (initSys [row0]) row0 [] t0 rfl rfl (by decide)) ?_
  refine Relation.ReflTransGen.head (Step.produceDone _ rfl rfl) ?_
  refine Relation.ReflTransGen.head (Step.consume _ t0 [] rfl rfl) ?_
  exact Relation.ReflTransGen.head (Step.timeoutDrain _ rfl rfl rfl)
    Relation.ReflTransGen.refl

/-- The drain transition out of `sPre`. -/
lemma step_sPre : Step mC 2 sinkT sPre sPost :=
  Step.timeoutDrain sPre rfl rfl rfl

/-! ### The claims -/

/-- C1: for every transaction whose customer id is a key of the customer
map, whose product id is a key of the product map, and whose date parses to
a date id in the valid-date set, a run with a healthy sink commits exactly
one `JoinedRecord` per joinable stream occurrence (the committed rows are
precisely `successOutputs`, the per-occurrence image of the join chain),
and that record's total amount is quantity times the product's unit
price. -/
theorem claim_C1 (m : Master) (bs : Nat) (sink : Nat → Bool)
    (ts : List TransactionRecord) (t : TransactionRecord)
    (c : CustomerRecord) (p : ProductRecord) (d : Nat)
    (hsink : ∀ n, sink n = true)
    (hc : m.customer_master.lookup t.customer_id = some c)
    (hp : m.product_master.lookup t.product_id = some p)
    (hd : parseDateId t.date = some d)
    (hv : d ∈ m.valid_dates) :
    (hybridjoinRun m bs sink ts).db.flatten = successOutputs m ts
    ∧ mkJoined m t = some (joinedRecordOf t p d)
    ∧ (joinedRecordOf t p d).total_amount = (t.quantity : ℚ) * p.price := by
  refine ⟨hybridjoinRun_db m bs sink hsink ts, ?_, rfl⟩
  unfold mkJoined
  rw [hc, hp, hd]
  simp [hv]

theorem claim_C1_witness :
    (hybridjoinRun mC 2 sinkT [t0]).db.flatten = successOutputs mC [t0] :=
  (claim_C1 mC 2 sinkT [t0] t0 cust0 prod0 20240105 (fun _ => rfl)
    (by decide) (by decide) (by decide) (by decide)).1

/-- C2 (counterexample): the claim says a malformed row is skipped and the
reader continues with the remaining rows.  On the feed `[rowBad, row0]` the
reader enqueues nothing at all, although the remaining row `row0` is
well-formed and is enqueued when the reader runs on `[row0]` alone: the
exception raised by the malformed row propagates to the handler outside the
row loop (line 175) and ends the whole stream. -/
theorem claim_C2_counterexample :
    (streamReader [rowBad, row0]).enqueued = []
    ∧ (parseRow row0).isSome = true
    ∧ (streamReader [row0]).enqueued = [t0] := by
  refine ⟨by decide, by decide, by decide⟩

/-- C2 (amended): when the stream reader encounters a malformed row, it
aborts the rest of the feed — the rows parsed before the malformed one are
exactly what is enqueued and counted, and nothing after it is read — and in
every exit path (including this abort) the completion flag is set to true
before the reader returns. -/
theorem claim_C2 (pre : List RawRow) (r : RawRow) (post : List RawRow)
    (hpre : ∀ x ∈ pre, (parseRow x).isSome = true)
    (hr : parseRow r = none) :
    streamReader (pre ++ r :: post)
      = { enqueued := pre.filterMap parseRow
        , readCount := pre.length
        , complete := true
        , aborted := true }
    ∧ ∀ rows, (streamReader rows).complete = true := by
  constructor
  · unfold streamReader
    rw [produced_abort r hr pre post hpre,
      streamAborted_abort r hr pre post hpre,
      filterMap_length_of_isSome pre hpre]
  · intro rows
    rfl

theorem claim_C2_witness :
    streamReader [row0, rowBad, row0]
      = { enqueued := [row0].filterMap parseRow
        , readCount := [row0].length
        , complete := true
        , aborted := true } :=
  (claim_C2 [row0] rowBad [row0] (by decide) (by decide)).1

/-- C3: in every terminated run of the pipeline, the read counter equals
the joined counter plus the skipped counter; each popped tuple increments
exactly one of the two counters by exactly one; and every record occurring
in any flushed batch is the join-chain output of some consumed tuple, so a
skipped tuple (one with no join-chain output) never contributes a record to
any flushed batch. -/
theorem claim_C3 (m : Master) (bs : Nat) (sink : Nat → Bool)
    (rows : List RawRow) (s : SysState)
    (hreach : Reach m bs sink rows s) (hterm : s.terminated = true) :
    s.read = s.engine.total_joined + s.engine.total_skipped
    ∧ (∀ (e : EngineState) (t : TransactionRecord),
        ((hybridjoinStep m bs sink e t).total_joined = e.total_joined
          ∧ (hybridjoinStep m bs sink e t).total_skipped = e.total_skipped + 1)
        ∨ ((hybridjoinStep m bs sink e t).total_joined = e.total_joined + 1
          ∧ (hybridjoinStep m bs sink e t).total_skipped = e.total_skipped))
    ∧ ∀ r ∈ s.engine.flushLog.flatten,
        ∃ t ∈ s.consumed, mkJoined m t = some r := by
  have inv := reach_inv m bs sink rows s hreach
  have hchan := (inv.hterm hterm).2.1
  refine ⟨?_, fun e t => step_counts_cases m bs sink e t, ?_⟩
  · rw [inv.hread, hchan, inv.hcount]
    simp
  · intro r hr
    have hmem : r ∈ successOutputs m s.consumed := by
      rw [← inv.hlog]
      exact List.mem_append_left _ hr
    simpa [successOutputs, List.mem_filterMap] using hmem

theorem claim_C3_witness :
    sysD.read = sysD.engine.total_joined + sysD.engine.total_skipped :=
  (claim_C3 mC 2 sinkT [row0] sysD reach_sysD rfl).1

/-- C4: whenever the join loop is about to process (and possibly append)
the next record — i.e. after any prefix of the stream — the accumulator
holds strictly fewer than `batch_size` records, because the loop flushes as
soon as an append reaches the threshold; and a flush call always leaves the
accumulator empty, whatever its outcome. -/
theorem claim_C4 (m : Master) (bs : Nat) (sink : Nat → Bool)
    (ts : List TransactionRecord) (i : Nat) (e : EngineState)
    (hbs : 1 ≤ bs) :
    (engineRun m bs sink engineInit (ts.take i)).insert_batch.length < bs
    ∧ (flush_batch sink e).2.insert_batch = [] :=
  ⟨engineRun_batch_lt m bs sink hbs (ts.take i) engineInit
      (by simpa [engineInit] using hbs),
   flush_insert_nil sink e⟩

theorem claim_C4_witness :
    (engineRun mC 2 sinkT engineInit ([t0, t0, t0].take 2)).insert_batch.length < 2
    ∧ (flush_batch sinkT engineInit).2.insert_batch = [] :=
  claim_C4 mC 2 sinkT [t0, t0, t0] 2 engineInit (by decide)

/-- C5: a failed flush of a non-empty batch returns zero, leaves the loaded
counter and the committed store unchanged, clears the accumulator (the
batch is discarded, not retried), and processing can continue: a later
non-empty batch flushed when the sink recovers is committed in full. -/
theorem claim_C5 (sink : Nat → Bool) (s : EngineState)
    (b : List JoinedRecord)
    (hne : s.insert_batch ≠ []) (hf : sink s.flushCount = false)
    (hb : b ≠ []) (hnext : sink (s.flushCount + 1) = true) :
    (flush_batch sink s).1 = 0
    ∧ (flush_batch sink s).2.total_loaded = s.total_loaded
    ∧ (flush_batch sink s).2.db = s.db
    ∧ (flush_batch sink s).2.insert_batch = []
    ∧ (flush_batch sink
        { (flush_batch sink s).2 with insert_batch := b }).2.db
        = s.db ++ [b]
    ∧ (flush_batch sink
        { (flush_batch sink s).2 with insert_batch := b }).2.total_loaded
        = s.total_loaded + b.length := by
  have h1 : flush_batch sink s
      = (0,
        { s with
          flushLog := s.flushLog ++ [s.insert_batch]
          insert_batch := []
          flushCount := s.flushCount + 1 }) := by
    unfold flush_batch
    simp [hne, hf]
  rw [h1]
  refine ⟨rfl, rfl, rfl, rfl, ?_, ?_⟩ <;>
  · unfold flush_batch
    simp [hb, hnext]

theorem claim_C5_witness :
    (flush_batch sinkFirstFails sFail).1 = 0
    ∧ (flush_batch sinkFirstFails
        { (flush_batch sinkFirstFails sFail).2 with insert_batch := [jW] }).2.db
        = sFail.db ++ [[jW]] :=
  ⟨(claim_C5 sinkFirstFails sFail [jW] (by decide) rfl (by decide) rfl).1,
   (claim_C5 sinkFirstFails sFail [jW] (by decide) rfl (by decide) rfl).2.2.2.2.1⟩

/-- C6: the join chain is applied in the fixed order customer, product,
date, short-circuiting at the first failure: a customer miss skips the
tuple with no condition on the product or date fields, a product miss (with
the customer present) skips it with no condition on the date field, and a
date-parse failure and a valid-date miss produce the identical skip effect
— in all four cases the step is exactly a bump of the skipped counter. -/
theorem claim_C6 (m : Master) (bs : Nat) (sink : Nat → Bool)
    (s : EngineState) (t : TransactionRecord) :
    (m.customer_master.lookup t.customer_id = none →
      hybridjoinStep m bs sink s t
        = { s with total_skipped := s.total_skipped + 1 })
    ∧ (∀ c, m.customer_master.lookup t.customer_id = some c →
        m.product_master.lookup t.product_id = none →
        hybridjoinStep m bs sink s t
          = { s with total_skipped := s.total_skipped + 1 })
    ∧ (∀ c p, m.customer_master.lookup t.customer_id = some c →
        m.product_master.lookup t.product_id = some p →
        parseDateId t.date = none →
        hybridjoinStep m bs sink s t
          = { s with total_skipped := s.total_skipped + 1 })
    ∧ (∀ c p d, m.customer_master.lookup t.customer_id = some c →
        m.product_master.lookup t.product_id = some p →
        parseDateId t.date = some d → d ∉ m.valid_dates →
        hybridjoinStep m bs sink s t
          = { s with total_skipped := s.total_skipped + 1 }) := by
  refine ⟨?_, ?_, ?_, ?_⟩
  · intro h
    unfold hybridjoinStep
    rw [h]
  · intro c hc hp
    unfold hybridjoinStep
    rw [hc, hp]
  · intro c p hc hp hd
    unfold hybridjoinStep
    rw [hc, hp, hd]
  · intro c p d hc hp hd hv
    unfold hybridjoinStep
    rw [hc, hp, hd]
    simp [hv]

theorem claim_C6_witness :
    hybridjoinStep mC 2 sinkT engineInit tNoCust
      = { engineInit with total_skipped := engineInit.total_skipped + 1 }
    ∧ hybridjoinStep mC 2 sinkT engineInit tBadDate
      = { engineInit with total_skipped := engineInit.total_skipped + 1 } :=
  ⟨(claim_C6 mC 2 sinkT engineInit tNoCust).1 (by decide),
   (claim_C6 mC 2 sinkT engineInit tBadDate).2.2.1 cust0 prod0
     (by decide) (by decide) (by decide)⟩

/-- C7: the only transition that terminates the join loop (with the stop
flag untouched) requires the completion flag to be true and the channel to
be empty at the same observation; it performs the final flush, after which
no joined record is left in the accumulator; and no further transition
leaves the terminated state, so termination happens at most once. -/
theorem claim_C7 (m : Master) (bs : Nat) (sink : Nat → Bool)
    (s s' : SysState) (hstep : Step m bs sink s s')
    (hafter : s'.terminated = true) (hbefore : s.terminated = false) :
    s.streamComplete = true ∧ s.channel = []
    ∧ s'.engine = (flush_batch sink s.engine).2
    ∧ s'.engine.insert_batch = []
    ∧ ∀ s'', ¬ Step m bs sink s' s'' := by
  cases hstep with
  | produce r rest t hfeed hsc hparse => simp [hbefore] at hafter
  | produceAbort r rest hfeed hsc hparse => simp [hbefore] at hafter
  | produceDone hfeed hsc => simp [hbefore] at hafter
  | consume t rest hterm0 hchan => simp [hbefore] at hafter
  | timeoutFlush hterm0 hsc hchan => simp [hbefore] at hafter
  | timeoutDrain hterm0 hsc hchan =>
    refine ⟨hsc, hchan, rfl, flush_insert_nil sink s.engine, ?_⟩
    intro s'' hstep2
    cases hstep2 with
    | produce r2 rest2 t2 hfeed2 hsc2 hparse2 => simp [hsc] at hsc2
    | produceAbort r2 rest2 hfeed2 hsc2 hparse2 => simp [hsc] at hsc2
    | produceDone hfeed2 hsc2 => simp [hsc] at hsc2
    | consume t2 rest2 hterm2 hchan2 => simp at hterm2
    | timeoutFlush hterm2 hsc2 hchan2 => simp at hterm2
    | timeoutDrain hterm2 hsc2 hchan2 => simp at hterm2

theorem claim_C7_witness :
    sPre.streamComplete = true
    ∧ sPost.engine.insert_batch = []
    ∧ ¬ Step mC 2 sinkT sPost sPre :=
  ⟨(claim_C7 mC 2 sinkT sPre sPost step_sPre rfl rfl).1,
   (claim_C7 mC 2 sinkT sPre sPost step_sPre rfl rfl).2.2.2.1,
   (claim_C7 mC 2 sinkT sPre sPost step_sPre rfl rfl).2.2.2.2 sPre⟩

/-- C8: in every terminated run of the pipeline with a healthy sink, the
concatenation of the committed batches, in flush order, equals the
join-chain outputs of the transactions the reader enqueued, in their
original feed order — the pipeline never reorders records relative to the
feed — and the tuples consumed are exactly the enqueued ones. -/
theorem claim_C8 (m : Master) (bs : Nat) (sink : Nat → Bool)
    (rows : List RawRow) (s : SysState)
    (hreach : Reach m bs sink rows s) (hterm : s.terminated = true)
    (hsink : ∀ n, sink n = true) :
    s.engine.db.flatten = successOutputs m (produced rows)
    ∧ s.consumed = produced rows := by
  have inv := reach_inv m bs sink rows s hreach
  obtain ⟨hsc, hchan, hbatch⟩ := inv.hterm hterm
  have hcons : s.consumed = produced rows := by
    have hs := inv.hsplit
    rw [hsc, hchan] at hs
    simpa using hs
  refine ⟨?_, hcons⟩
  have hlog := inv.hlog
  rw [hbatch, List.append_nil] at hlog
  rw [inv.hdb hsink, hlog, hcons]

theorem claim_C8_witness :
    sysD.engine.db.flatten = successOutputs mC (produced [row0]) :=
  (claim_C8 mC 2 sinkT [row0] sysD reach_sysD rfl (fun _ => rfl)).1

/-- C9: flushing an empty batch is a complete no-op that returns zero: the
state — loaded counter, accumulator, flush log, committed store, and the
attempt counter (no database operation happens) — is returned unchanged. -/
theorem claim_C9 (sink : Nat → Bool) (s : EngineState)
    (h : s.insert_batch = []) : flush_batch sink s = (0, s) := by
  unfold flush_batch
  simp [h]

theorem claim_C9_witness : flush_batch sinkT engineInit = (0, engineInit) :=
  claim_C9 sinkT engineInit rfl

/-- C10: a product row with a missing price loads as a `ProductRecord` with
unit price `0` rather than being rejected; a transaction that joins against
such a product is counted as joined (not skipped), and its joined record
has total amount `0`. -/
theorem claim_C10 (r : ProductRaw) (m : Master) (bs : Nat)
    (sink : Nat → Bool) (s : EngineState) (t : TransactionRecord)
    (c : CustomerRecord) (d : Nat)
    (hmiss : r.price = none)
    (hc : m.customer_master.lookup t.customer_id = some c)
    (hp : m.product_master.lookup t.product_id = some (productRecordOfRow r))
    (hd : parseDateId t.date = some d)
    (hv : d ∈ m.valid_dates) :
    (productRecordOfRow r).price = 0
    ∧ mkJoined m t = some (joinedRecordOf t (productRecordOfRow r) d)
    ∧ (joinedRecordOf t (productRecordOfRow r) d).total_amount = 0
    ∧ (hybridjoinStep m bs sink s t).total_joined = s.total_joined + 1
    ∧ (hybridjoinStep m bs sink s t).total_skipped = s.total_skipped := by
  have hprice : (productRecordOfRow r).price = 0 := by
    simp [productRecordOfRow, hmiss]
  have hmk : mkJoined m t = some (joinedRecordOf t (productRecordOfRow r) d) := by
    unfold mkJoined
    rw [hc, hp, hd]
    simp [hv]
  refine ⟨hprice, hmk, by simp [joinedRecordOf, hprice], ?_, ?_⟩
  · rw [hybridjoinStep_eq, hmk]
    simp only []
    split
    · rw [flush_joined]
    · rfl
  · rw [hybridjoinStep_eq, hmk]
    simp only []
    split
    · rw [flush_skipped]
    · rfl

theorem claim_C10_witness :
    (productRecordOfRow rowP).price = 0
    ∧ (hybridjoinStep mP 2 sinkT engineInit tP).total_skipped
        = engineInit.total_skipped :=
  ⟨(claim_C10 rowP mP 2 sinkT engineInit tP cust0 20240105 rfl
      (by decide) (by decide) (by decide) (by decide)).1,
   (claim_C10 rowP mP 2 sinkT engineInit tP cust0 20240105 rfl
      (by decide) (by decide) (by decide) (by decide)).2.2.2.2⟩

end HybridJoin
